import Mathlib

/-!
Shallow embedding of the tslint rule `member-access-except-decorators`
(src/memberAccessExceptDecoratorsRule.ts).

The rule walks a parsed TypeScript source tree; on each class-like
declaration it iterates the member list, and for qualifying members
without an explicit visibility modifier it emits a diagnostic together
with a fix inserting the text "public ".

Modelling conventions:
  * `SyntaxKind` enumerates the node kinds the rule distinguishes
    (a projection of `ts.SyntaxKind`).
  * A node's `modifiers` array (possibly `undefined` in TypeScript,
    behaviourally identical to the empty array for `hasModifier` /
    `getModifier`) is a `List ModifierKind`.
  * Tokens carry their full start (position including leading trivia),
    text start (`getStart`) and end offsets, mirroring the offsets the
    TypeScript scanner attaches; `getTokenAtPosition`, `getChildOfKind`
    and `Node.getStart` from tsutils / the TypeScript API are embedded
    over these token lists.
  * `decorators` is `Option (List Token)`: `none` models the field being
    `undefined` (the parser never produces an empty decorator array).
  * Constructor parameters are carried on the member (`parameters`) as in
    the TypeScript AST; the rule's walk never visits them.
-/

inductive SyntaxKind : Type where
  | methodDeclaration
  | propertyDeclaration
  | getAccessor
  | setAccessor
  | constructorDecl
  | parameter
  | indexSignature
  | semicolonClassElement
  | identifier
  | stringLiteral
  | numericLiteral
  | computedPropertyName
  | constructorKeyword
  | otherToken
deriving DecidableEq

/-- The TypeScript enum member name, as `ts.SyntaxKind[node.kind]` prints it. -/
def syntaxKindName (k : SyntaxKind) : String :=
  match k with
  | SyntaxKind.methodDeclaration => "MethodDeclaration"
  | SyntaxKind.propertyDeclaration => "PropertyDeclaration"
  | SyntaxKind.getAccessor => "GetAccessor"
  | SyntaxKind.setAccessor => "SetAccessor"
  | SyntaxKind.constructorDecl => "Constructor"
  | SyntaxKind.parameter => "Parameter"
  | SyntaxKind.indexSignature => "IndexSignature"
  | SyntaxKind.semicolonClassElement => "SemicolonClassElement"
  | SyntaxKind.identifier => "Identifier"
  | SyntaxKind.stringLiteral => "StringLiteral"
  | SyntaxKind.numericLiteral => "NumericLiteral"
  | SyntaxKind.computedPropertyName => "ComputedPropertyName"
  | SyntaxKind.constructorKeyword => "ConstructorKeyword"
  | SyntaxKind.otherToken => "OtherToken"

inductive ModifierKind : Type where
  | publicKeyword
  | privateKeyword
  | protectedKeyword
  | staticKeyword
  | readonlyKeyword
  | asyncKeyword
  | abstractKeyword
deriving DecidableEq

/-- A scanner token: `fullStart` is the position including leading trivia
(`node.pos`), `start` the position of the token text (`getStart`), `tokEnd`
the end position. -/
structure Token : Type where
  kind : SyntaxKind
  fullStart : Nat
  start : Nat
  tokEnd : Nat
deriving DecidableEq

/-- A member's (or parameter's) name node: an identifier, string/numeric
literal or computed property name, with its source span. -/
structure NameNode : Type where
  kind : SyntaxKind
  text : String
  start : Nat
  nameEnd : Nat
deriving DecidableEq

/-- A constructor parameter declaration (never visited by the walk). -/
structure Param : Type where
  modifiers : List ModifierKind
  name : Option NameNode
deriving DecidableEq

/-- A class element (`ts.ClassElement`): kind tag, modifier list, optional
decorator token list, optional name, the member's own tokens (those after
any decorators), and — for constructors — the parameter list. -/
structure Member : Type where
  kind : SyntaxKind
  modifiers : List ModifierKind
  decorators : Option (List Token)
  name : Option NameNode
  bodyTokens : List Token
  parameters : List Param
deriving DecidableEq

/-- All tokens of the member node, decorators first (`undefined` decorators
contribute nothing). -/
def Member.allTokens (m : Member) : List Token :=
  (match m.decorators with
   | some ds => ds
   | none => []) ++ m.bodyTokens

/-- `node.getStart(sourceFile)`: the start of the member's first token
(the first decorator when the member is decorated). -/
def Member.getStart (m : Member) : Nat :=
  match m.allTokens.head? with
  | some t => t.start
  | none => 0

/-- `node.end`: the end of the member's last token. -/
def Member.memberEnd (m : Member) : Nat :=
  match m.bodyTokens.getLast? with
  | some t => t.tokEnd
  | none => 0

/-- `member.decorators.end`: the end offset of the decorator `NodeArray`,
i.e. of its last decorator. -/
def decsEnd (decs : List Token) : Nat :=
  match decs.getLast? with
  | some t => t.tokEnd
  | none => 0

/-- tsutils `hasModifier(modifiers, ...kinds)`: some modifier's kind is among
`kinds` (false when the modifier array is `undefined`, i.e. `[]` here). -/
def hasModifier (modifiers : List ModifierKind) (kinds : List ModifierKind) : Bool :=
  modifiers.any (fun x => kinds.contains x)

/-- tsutils `getModifier(node, kind)`: the node's modifier of that kind,
if present. -/
def getModifier (m : Member) (kind : ModifierKind) : Option ModifierKind :=
  m.modifiers.find? (fun x => x == kind)

/-- tsutils `getTokenAtPosition(node, pos, sourceFile)`: the token of the
node whose range `[fullStart, tokEnd)` contains `pos`. -/
def getTokenAtPosition (m : Member) (pos : Nat) : Option Token :=
  m.allTokens.find? (fun t => decide (t.fullStart ≤ pos ∧ pos < t.tokEnd))

/-- tsutils `getChildOfKind(node, kind, sourceFile)`: the node's first token
of the given kind. -/
def getChildOfKind (m : Member) (k : SyntaxKind) : Option Token :=
  m.allTokens.find? (fun t => t.kind == k)

/-- A text edit; `Lint.Replacement.appendText` produces a pure insertion
(length 0). -/
structure Replacement : Type where
  start : Nat
  length : Nat
  text : String
deriving DecidableEq

def Replacement.appendText (pos : Nat) (text : String) : Replacement :=
  ⟨pos, 0, text⟩

/-- A rule failure: source span (`start`, `length`), message, and the fix. -/
structure Diagnostic : Type where
  start : Nat
  length : Nat
  message : String
  fix : Replacement
deriving DecidableEq

/-- `Rule.FAILURE_STRING_FACTORY(memberType, memberName)`: `none` models the
`undefined` member name. -/
def Rule.FAILURE_STRING_FACTORY (memberType : String) (memberName : Option String) :
    String :=
  let nm :=
    match memberName with
    | none => ""
    | some n => " '" ++ n ++ "'"
  "The " ++ memberType ++ nm ++
    " must be marked either 'private', 'public', or 'protected'"

/-- `shouldCheck(node)`: methods and accessors always qualify, property
declarations only without decorators, every other member kind never. -/
def shouldCheck (m : Member) : Bool :=
  match m.kind with
  | SyntaxKind.getAccessor => true
  | SyntaxKind.setAccessor => true
  | SyntaxKind.methodDeclaration => true
  | SyntaxKind.propertyDeclaration => m.decorators.isNone
  | _ => false

/-- `typeToString(node)`: the member-type label, or the thrown internal error
for an unhandled kind. -/
def typeToString (k : SyntaxKind) : Except String String :=
  match k with
  | SyntaxKind.methodDeclaration => Except.ok "class method"
  | SyntaxKind.propertyDeclaration => Except.ok "class property"
  | SyntaxKind.getAccessor => Except.ok "get property accessor"
  | SyntaxKind.setAccessor => Except.ok "set property accessor"
  | SyntaxKind.parameter => Except.ok "parameter property"
  | _ => Except.error ("unhandled node type " ++ syntaxKindName k)

/-- `getInsertionPosition(member, sourceFile)`: the member's own start when it
has no decorators, else the start of the token found at the decorators' end
position (the source applies a non-null assertion to that token; a missing
token is modelled as position 0). -/
def getInsertionPosition (m : Member) : Nat :=
  match m.decorators with
  | none => m.getStart
  | some decs =>
    match getTokenAtPosition m (decsEnd decs) with
    | some t => t.start
    | none => 0

/-- The span `addFailureAtNode` reports: the `constructor` keyword token for a
constructor, else the name node when present, else the whole member node
(the constructor branch carries the source's non-null assertion, modelled as
span `(0, 0)` when the keyword token is absent). -/
def checkLocation (m : Member) : Nat × Nat :=
  if m.kind = SyntaxKind.constructorDecl then
    match getChildOfKind m SyntaxKind.constructorKeyword with
    | some t => (t.start, t.tokEnd - t.start)
    | none => (0, 0)
  else
    match m.name with
    | some n => (n.start, n.nameEnd - n.start)
    | none => (m.getStart, m.memberEnd - m.getStart)

/-- `check(node)`: `none` when the member passes; `some d` when a failure is
added. The unreachable `typeToString` error branch (the source throws there;
`shouldCheck` rules it out on every call path) yields `none`. -/
def check (m : Member) : Option Diagnostic :=
  if hasModifier m.modifiers
      [ModifierKind.protectedKeyword, ModifierKind.privateKeyword] then
    none
  else
    let publicKeyword := getModifier m ModifierKind.publicKeyword
    if publicKeyword.isSome then
      none
    else
      match typeToString m.kind with
      | Except.error _ => none
      | Except.ok ty =>
        let loc := checkLocation m
        let memberName : Option String :=
          match m.name with
          | some n =>
            if n.kind = SyntaxKind.identifier then some n.text else none
          | none => none
        some
          { start := loc.1
            length := loc.2
            message := Rule.FAILURE_STRING_FACTORY ty memberName
            fix := Replacement.appendText (getInsertionPosition m) "public " }

/-- One member of the walk's class-member loop:
`if (shouldCheck(child)) check(child)`. -/
def processMember (m : Member) : Option Diagnostic :=
  if shouldCheck m then check m else none

mutual
/-- A node of the source tree: whether `isClassLikeDeclaration` holds, the
class member list (meaningful for class-like nodes), and the child nodes. -/
inductive TsNode : Type where
  | mk (isClassLike : Bool) (members : List Member) (children : TsNodeList)

/-- The children of a node (a `List TsNode`, unrolled so that the mutual
recursors stay structural). -/
inductive TsNodeList : Type where
  | nil : TsNodeList
  | cons (hd : TsNode) (tl : TsNodeList) : TsNodeList
end

mutual
def TsNode.beq : TsNode → TsNode → Bool
  | TsNode.mk i1 m1 c1, TsNode.mk i2 m2 c2 =>
    i1 == i2 && m1 == m2 && TsNodeList.beq c1 c2

def TsNodeList.beq : TsNodeList → TsNodeList → Bool
  | TsNodeList.nil, TsNodeList.nil => true
  | TsNodeList.cons h1 t1, TsNodeList.cons h2 t2 =>
    TsNode.beq h1 h2 && TsNodeList.beq t1 t2
  | _, _ => false
end

instance : BEq TsNode := ⟨TsNode.beq⟩

/-- The diagnostics the walk emits while standing on one node: the class
member loop for class-like declarations, nothing otherwise. -/
def nodeDiags : TsNode → List Diagnostic
  | TsNode.mk isClassLike members _ =>
    if isClassLike then members.filterMap processMember else []

mutual
/-- `recur(node)`: handle a class-like declaration's member list, then
`ts.forEachChild(node, recur)`. -/
def walkNode : TsNode → List Diagnostic
  | TsNode.mk isClassLike members children =>
    (if isClassLike then members.filterMap processMember else []) ++
      walkNodes children

def walkNodes : TsNodeList → List Diagnostic
  | TsNodeList.nil => []
  | TsNodeList.cons h t => walkNode h ++ walkNodes t
end

/-- The parsed source file: `ts.forEachChild(ctx.sourceFile, recur)` starts
the recursion at its children. -/
structure SourceFile : Type where
  children : TsNodeList

/-- `walk(ctx)`: the full traversal. -/
def walk (sf : SourceFile) : List Diagnostic :=
  walkNodes sf.children

/-- `Rule.apply(sourceFile)` = `applyWithFunction(sourceFile, walk)`. -/
def Rule.apply (sf : SourceFile) : List Diagnostic :=
  walk sf

mutual
/-- Depth-first pre-order listing of a subtree's nodes. -/
def preorder : TsNode → List TsNode
  | TsNode.mk i m c => TsNode.mk i m c :: preorderList c

def preorderList : TsNodeList → List TsNode
  | TsNodeList.nil => []
  | TsNodeList.cons h t => preorder h ++ preorderList t
end

mutual
/-- How many times `x` occurs as a node of the subtree. -/
def occCount (x : TsNode) : TsNode → Nat
  | TsNode.mk i m c => (if TsNode.mk i m c == x then 1 else 0) + occCountList x c

def occCountList (x : TsNode) : TsNodeList → Nat
  | TsNodeList.nil => 0
  | TsNodeList.cons h t => occCount x h + occCountList x t
end

/-! ### Traversal lemmas -/

mutual
theorem walkNode_eq_preorder :
    ∀ n : TsNode, walkNode n = (preorder n).bind nodeDiags
  | TsNode.mk i m c => by
    simp [walkNode, preorder, nodeDiags, List.cons_bind,
      walkNodes_eq_preorder c]

theorem walkNodes_eq_preorder :
    ∀ l : TsNodeList, walkNodes l = (preorderList l).bind nodeDiags
  | TsNodeList.nil => rfl
  | TsNodeList.cons h t => by
    simp [walkNodes, preorderList, List.append_bind,
      walkNode_eq_preorder h, walkNodes_eq_preorder t]
end

mutual
theorem preorder_count (x : TsNode) :
    ∀ n : TsNode, (preorder n).count x = occCount x n
  | TsNode.mk i m c => by
    simp [preorder, occCount, List.count_cons, preorderList_count x c]
    omega

theorem preorderList_count (x : TsNode) :
    ∀ l : TsNodeList, (preorderList l).count x = occCountList x l
  | TsNodeList.nil => rfl
  | TsNodeList.cons h t => by
    simp [preorderList, occCountList, List.count_append,
      preorder_count x h, preorderList_count x t]
end

/-- C7: the traversal is depth-first pre-order with no pruning — `apply`'s
output is exactly the per-node diagnostics flat-mapped over the pre-order
node listing (so handling a class's member list never short-circuits the
recursion into its children, and nested class-like declarations are also
checked), and that listing visits every node of the tree exactly as often
as it occurs in the tree (once, for each physical node). -/
theorem claim_C7 (sf : SourceFile) (x : TsNode) :
    Rule.apply sf = (preorderList sf.children).bind nodeDiags ∧
    (preorderList sf.children).count x = occCountList x sf.children :=
  ⟨walkNodes_eq_preorder sf.children, preorderList_count x sf.children⟩

/-! ### The per-member visibility check -/

theorem hasModifier_protPriv_iff (m : Member) :
    (m.modifiers.any fun x =>
        [ModifierKind.protectedKeyword, ModifierKind.privateKeyword].contains x) = true
      ↔ (ModifierKind.protectedKeyword ∈ m.modifiers ∨
         ModifierKind.privateKeyword ∈ m.modifiers) := by
  constructor
  · intro h
    obtain ⟨x, hx, hc⟩ := List.any_eq_true.mp h
    have hx2 : x = ModifierKind.protectedKeyword ∨ x = ModifierKind.privateKeyword := by
      simpa using hc
    rcases hx2 with rfl | rfl
    · exact Or.inl hx
    · exact Or.inr hx
  · intro h
    rcases h with h | h
    · exact List.any_eq_true.mpr ⟨_, h, by simp⟩
    · exact List.any_eq_true.mpr ⟨_, h, by simp⟩

theorem getModifier_public_isSome_iff (m : Member) :
    (getModifier m ModifierKind.publicKeyword).isSome = true
      ↔ ModifierKind.publicKeyword ∈ m.modifiers := by
  rw [getModifier, List.find?_isSome]
  constructor
  · rintro ⟨x, hx, hb⟩
    have hx2 : x = ModifierKind.publicKeyword := by simpa using hb
    subst hx2
    exact hx
  · intro h
    exact ⟨_, h, by simp⟩

/-- `check` emits a diagnostic exactly when the member has none of the three
visibility modifiers (given its kind has a member-type label). -/
theorem check_isSome_iff (m : Member) (ty : String)
    (hty : typeToString m.kind = Except.ok ty) :
    (check m).isSome ↔
      (ModifierKind.publicKeyword ∉ m.modifiers ∧
       ModifierKind.privateKeyword ∉ m.modifiers ∧
       ModifierKind.protectedKeyword ∉ m.modifiers) := by
  simp only [check, hasModifier, hty]
  by_cases h1 : (m.modifiers.any fun x =>
      [ModifierKind.protectedKeyword, ModifierKind.privateKeyword].contains x) = true
  · rw [if_pos h1]
    simp only [Option.isSome_none, Bool.false_eq_true, false_iff]
    rcases (hasModifier_protPriv_iff m).mp h1 with hp | hp
    · exact fun h => h.2.2 hp
    · exact fun h => h.2.1 hp
  · rw [if_neg h1]
    by_cases h2 : (getModifier m ModifierKind.publicKeyword).isSome = true
    · rw [if_pos h2]
      simp only [Option.isSome_none, Bool.false_eq_true, false_iff]
      exact fun h => h.1 ((getModifier_public_isSome_iff m).mp h2)
    · rw [if_neg h2]
      exact ⟨fun _ =>
        ⟨fun h => h2 ((getModifier_public_isSome_iff m).mpr h),
         fun h => h1 ((hasModifier_protPriv_iff m).mpr (Or.inr h)),
         fun h => h1 ((hasModifier_protPriv_iff m).mpr (Or.inl h))⟩,
        fun _ => rfl⟩

/-- C2: for a class member that is a method, get-accessor or set-accessor,
the walk's per-member step (`if (shouldCheck(child)) check(child)`) produces
a diagnostic if and only if the member carries no explicit `public`,
`private` or `protected` modifier — for any decorator list, i.e. regardless
of decorators. -/
theorem claim_C2 (m : Member)
    (hk : m.kind = SyntaxKind.methodDeclaration ∨
          m.kind = SyntaxKind.getAccessor ∨
          m.kind = SyntaxKind.setAccessor) :
    (processMember m).isSome ↔
      (ModifierKind.publicKeyword ∉ m.modifiers ∧
       ModifierKind.privateKeyword ∉ m.modifiers ∧
       ModifierKind.protectedKeyword ∉ m.modifiers) := by
  have hsc : shouldCheck m = true := by
    rcases hk with h | h | h <;> simp [shouldCheck, h]
  have hty : ∃ ty, typeToString m.kind = Except.ok ty := by
    rcases hk with h | h | h
    · exact ⟨"class method", by simp [typeToString, h]⟩
    · exact ⟨"get property accessor", by simp [typeToString, h]⟩
    · exact ⟨"set property accessor", by simp [typeToString, h]⟩
  obtain ⟨ty, hty⟩ := hty
  rw [processMember, if_pos hsc]
  exact check_isSome_iff m ty hty

/-- A decorated method without visibility modifiers, for the C2 witness. -/
def mW2 : Member :=
  { kind := SyntaxKind.methodDeclaration
    modifiers := []
    decorators := some [Token.mk SyntaxKind.otherToken 0 0 1,
                        Token.mk SyntaxKind.identifier 1 1 4]
    name := some (NameNode.mk SyntaxKind.identifier "foo" 5 8)
    bodyTokens := [Token.mk SyntaxKind.identifier 4 5 8,
                   Token.mk SyntaxKind.otherToken 8 8 9,
                   Token.mk SyntaxKind.otherToken 9 9 10,
                   Token.mk SyntaxKind.otherToken 10 11 12,
                   Token.mk SyntaxKind.otherToken 12 12 13]
    parameters := [] }

theorem claim_C2_witness :
    (mW2.kind = SyntaxKind.methodDeclaration ∨
     mW2.kind = SyntaxKind.getAccessor ∨
     mW2.kind = SyntaxKind.setAccessor) ∧
    ((processMember mW2).isSome ↔
      (ModifierKind.publicKeyword ∉ mW2.modifiers ∧
       ModifierKind.privateKeyword ∉ mW2.modifiers ∧
       ModifierKind.protectedKeyword ∉ mW2.modifiers)) :=
  ⟨Or.inl rfl, claim_C2 mW2 (Or.inl rfl)⟩

/-- C3: for a property declaration, the walk's per-member step produces a
diagnostic if and only if the member has no decorators and no explicit
`public`, `private` or `protected` modifier; in particular a decorated
property without a visibility modifier produces none. -/
theorem claim_C3 (m : Member)
    (hk : m.kind = SyntaxKind.propertyDeclaration) :
    (processMember m).isSome ↔
      (m.decorators = none ∧
       ModifierKind.publicKeyword ∉ m.modifiers ∧
       ModifierKind.privateKeyword ∉ m.modifiers ∧
       ModifierKind.protectedKeyword ∉ m.modifiers) := by
  have hty : typeToString m.kind = Except.ok "class property" := by
    simp [typeToString, hk]
  cases hdec : m.decorators with
  | none =>
    have hsc : shouldCheck m = true := by
      simp [shouldCheck, hk, hdec]
    rw [processMember, if_pos hsc]
    rw [check_isSome_iff m _ hty]
    simp
  | some ds =>
    have hsc : shouldCheck m = false := by
      simp [shouldCheck, hk, hdec]
    rw [processMember]
    rw [if_neg (by simp [hsc])]
    simp [hdec]

/-- A decorated, unmarked property, for the C3 witness: no diagnostic. -/
def mW3 : Member :=
  { kind := SyntaxKind.propertyDeclaration
    modifiers := []
    decorators := some [Token.mk SyntaxKind.otherToken 0 0 1,
                        Token.mk SyntaxKind.identifier 1 1 4]
    name := some (NameNode.mk SyntaxKind.identifier "prop" 5 9)
    bodyTokens := [Token.mk SyntaxKind.identifier 4 5 9,
                   Token.mk SyntaxKind.otherToken 9 9 10]
    parameters := [] }

theorem claim_C3_witness :
    mW3.kind = SyntaxKind.propertyDeclaration ∧
    ((processMember mW3).isSome ↔
      (mW3.decorators = none ∧
       ModifierKind.publicKeyword ∉ mW3.modifiers ∧
       ModifierKind.privateKeyword ∉ mW3.modifiers ∧
       ModifierKind.protectedKeyword ∉ mW3.modifiers)) :=
  ⟨rfl, claim_C3 mW3 rfl⟩

/-! ### Constructor parameter properties -/

/-- The constructor of `class A { constructor(public x: number, y: number) {} }`:
kind `Constructor`, no decorators, no name node, parameters `public x` and `y`
(offsets follow the source text, `constructor` spanning 10–21). -/
def ctorA : Member :=
  { kind := SyntaxKind.constructorDecl
    modifiers := []
    decorators := none
    name := none
    bodyTokens := [Token.mk SyntaxKind.constructorKeyword 9 10 21,
                   Token.mk SyntaxKind.otherToken 21 21 22,
                   Token.mk SyntaxKind.otherToken 22 22 28,
                   Token.mk SyntaxKind.identifier 28 29 30,
                   Token.mk SyntaxKind.otherToken 30 30 31,
                   Token.mk SyntaxKind.identifier 31 32 38,
                   Token.mk SyntaxKind.otherToken 38 38 39,
                   Token.mk SyntaxKind.identifier 39 40 41,
                   Token.mk SyntaxKind.otherToken 41 41 42,
                   Token.mk SyntaxKind.identifier 42 43 49,
                   Token.mk SyntaxKind.otherToken 49 49 50,
                   Token.mk SyntaxKind.otherToken 50 51 52,
                   Token.mk SyntaxKind.otherToken 52 52 53]
    parameters := [Param.mk [ModifierKind.publicKeyword]
                     (some (NameNode.mk SyntaxKind.identifier "x" 29 30)),
                   Param.mk []
                     (some (NameNode.mk SyntaxKind.identifier "y" 40 41))] }

/-- The source file `class A { constructor(public x: number, y: number) {} }`. -/
def exC1 : SourceFile :=
  SourceFile.mk
    (TsNodeList.cons (TsNode.mk true [ctorA] TsNodeList.nil) TsNodeList.nil)

/-- C1 (claim refuted — the code, as written, emits nothing here): on
`class A { constructor(public x: number, y: number) {} }` the rule emits no
diagnostic at all. `shouldCheck` returns `false` for a `Constructor` member,
and nothing in `walk` ever visits constructor parameter declarations, so the
unmodified parameter `y` is never reported; `check`'s `Constructor` branch,
`typeToString`'s `"parameter property"` label and `getInsertionPosition`'s
acceptance of parameter declarations are dead code. -/
theorem claim_C1 :
    Rule.apply exC1 = [] ∧ processMember ctorA = none :=
  ⟨rfl, rfl⟩

/-! ### The member-type label mapping -/

/-- C6: `typeToString` on any kind other than the five handled ones produces
the internal error `unhandled node type <kind>`; it never falls back to a
fabricated label. -/
theorem claim_C6 (k : SyntaxKind)
    (hk : k ≠ SyntaxKind.methodDeclaration ∧
          k ≠ SyntaxKind.propertyDeclaration ∧
          k ≠ SyntaxKind.getAccessor ∧
          k ≠ SyntaxKind.setAccessor ∧
          k ≠ SyntaxKind.parameter) :
    typeToString k = Except.error ("unhandled node type " ++ syntaxKindName k) := by
  cases k
  all_goals first
    | rfl
    | (exact absurd rfl hk.1)
    | (exact absurd rfl hk.2.1)
    | (exact absurd rfl hk.2.2.1)
    | (exact absurd rfl hk.2.2.2.1)
    | (exact absurd rfl hk.2.2.2.2)

theorem claim_C6_witness :
    (SyntaxKind.constructorDecl ≠ SyntaxKind.methodDeclaration ∧
     SyntaxKind.constructorDecl ≠ SyntaxKind.propertyDeclaration ∧
     SyntaxKind.constructorDecl ≠ SyntaxKind.getAccessor ∧
     SyntaxKind.constructorDecl ≠ SyntaxKind.setAccessor ∧
     SyntaxKind.constructorDecl ≠ SyntaxKind.parameter) ∧
    typeToString SyntaxKind.constructorDecl =
      Except.error ("unhandled node type " ++
        syntaxKindName SyntaxKind.constructorDecl) :=
  ⟨by decide, claim_C6 SyntaxKind.constructorDecl (by decide)⟩

/-! ### Inversion of the per-member check -/

/-- The member name `check` reports: the name node's text when that node is a
plain identifier, `undefined` otherwise. -/
def reportedName (m : Member) : Option String :=
  match m.name with
  | some n => if n.kind = SyntaxKind.identifier then some n.text else none
  | none => none

/-- Inversion: an emitted diagnostic carries the `checkLocation` span, the
`FAILURE_STRING_FACTORY` message over the member's label and reported name,
and the `"public "` insertion at `getInsertionPosition`. -/
theorem check_inv (m : Member) (d : Diagnostic) (h : check m = some d) :
    ∃ ty, typeToString m.kind = Except.ok ty ∧
      d.start = (checkLocation m).1 ∧
      d.length = (checkLocation m).2 ∧
      d.message = Rule.FAILURE_STRING_FACTORY ty (reportedName m) ∧
      d.fix = Replacement.appendText (getInsertionPosition m) "public " := by
  simp only [check] at h
  by_cases h1 : (hasModifier m.modifiers
      [ModifierKind.protectedKeyword, ModifierKind.privateKeyword]) = true
  · rw [if_pos h1] at h
    exact absurd h (by simp)
  · rw [if_neg h1] at h
    by_cases h2 : (getModifier m ModifierKind.publicKeyword).isSome = true
    · rw [if_pos h2] at h
      exact absurd h (by simp)
    · rw [if_neg h2] at h
      cases hty : typeToString m.kind with
      | error e =>
        rw [hty] at h
        exact absurd h (by simp)
      | ok ty =>
        rw [hty] at h
        simp only [Option.some.injEq] at h
        refine ⟨ty, rfl, ?_, ?_, ?_, ?_⟩ <;> rw [← h] <;>
          simp [reportedName]

theorem processMember_inv (m : Member) (d : Diagnostic)
    (h : processMember m = some d) :
    shouldCheck m = true ∧ check m = some d := by
  rw [processMember] at h
  by_cases hs : shouldCheck m = true
  · exact ⟨hs, by rwa [if_pos hs] at h⟩
  · rw [if_neg hs] at h
    exact absurd h (by simp)

theorem shouldCheck_kind (m : Member) (h : shouldCheck m = true) :
    m.kind = SyntaxKind.methodDeclaration ∨
    m.kind = SyntaxKind.propertyDeclaration ∨
    m.kind = SyntaxKind.getAccessor ∨
    m.kind = SyntaxKind.setAccessor := by
  cases hk : m.kind <;> simp [shouldCheck, hk] at h ⊢

theorem shouldCheck_ne_ctor (m : Member) (h : shouldCheck m = true) :
    m.kind ≠ SyntaxKind.constructorDecl := by
  rcases shouldCheck_kind m h with hk | hk | hk | hk <;> simp [hk]

theorem checkLocation_of_name (m : Member) (n : NameNode)
    (hc : m.kind ≠ SyntaxKind.constructorDecl) (hn : m.name = some n) :
    checkLocation m = (n.start, n.nameEnd - n.start) := by
  rw [checkLocation, if_neg hc, hn]

theorem checkLocation_of_noName (m : Member)
    (hc : m.kind ≠ SyntaxKind.constructorDecl) (hn : m.name = none) :
    checkLocation m = (m.getStart, m.memberEnd - m.getStart) := by
  rw [checkLocation, if_neg hc, hn]

/-! ### The message format -/

theorem failureString_some (ty nm : String) :
    Rule.FAILURE_STRING_FACTORY ty (some nm) =
      "The " ++ ty ++ " '" ++ nm ++
        "' must be marked either 'private', 'public', or 'protected'" := by
  simp [Rule.FAILURE_STRING_FACTORY, String.append_assoc]

theorem failureString_none (ty : String) :
    Rule.FAILURE_STRING_FACTORY ty none =
      "The " ++ ty ++
        " must be marked either 'private', 'public', or 'protected'" := by
  simp [Rule.FAILURE_STRING_FACTORY, String.append_assoc]

/-- C4 (amended): for an emitted diagnostic, when the member's name node is a
plain identifier the message is exactly
`The <type> '<name>' must be marked either 'private', 'public', or 'protected'`;
when the member has no name — or a name that is not a plain identifier — the
` '<name>'` segment is omitted entirely and the rest is unchanged. -/
theorem claim_C4 (m : Member) (d : Diagnostic)
    (h : processMember m = some d) :
    (∀ n, m.name = some n → n.kind = SyntaxKind.identifier →
      ∀ ty, typeToString m.kind = Except.ok ty →
        d.message = "The " ++ ty ++ " '" ++ n.text ++
          "' must be marked either 'private', 'public', or 'protected'") ∧
    ((m.name = none ∨ ∃ n, m.name = some n ∧ n.kind ≠ SyntaxKind.identifier) →
      ∀ ty, typeToString m.kind = Except.ok ty →
        d.message = "The " ++ ty ++
          " must be marked either 'private', 'public', or 'protected'") := by
  obtain ⟨hs, hc⟩ := processMember_inv m d h
  obtain ⟨ty0, hty0, _, _, hmsg, _⟩ := check_inv m d hc
  constructor
  · intro n hn hk ty hty
    rw [hty0] at hty
    injection hty with hty
    subst hty
    have hrn : reportedName m = some n.text := by
      simp [reportedName, hn, hk]
    rw [hmsg, hrn, failureString_some]
  · intro hcase ty hty
    rw [hty0] at hty
    injection hty with hty
    subst hty
    have hrn : reportedName m = none := by
      rcases hcase with hn | ⟨n, hn, hk⟩
      · simp [reportedName, hn]
      · simp [reportedName, hn, hk]
    rw [hmsg, hrn, failureString_none]

/-- The method member of `class A { 'foo'() {} }`: its name node is a string
literal, not an identifier. -/
def cex4 : Member :=
  { kind := SyntaxKind.methodDeclaration
    modifiers := []
    decorators := none
    name := some (NameNode.mk SyntaxKind.stringLiteral "foo" 0 5)
    bodyTokens := [Token.mk SyntaxKind.stringLiteral 0 0 5,
                   Token.mk SyntaxKind.otherToken 5 5 6,
                   Token.mk SyntaxKind.otherToken 6 6 7,
                   Token.mk SyntaxKind.otherToken 7 8 9,
                   Token.mk SyntaxKind.otherToken 9 9 10]
    parameters := [] }

/-- C4 counterexample: this member has a name (`'foo'`, a string literal) and
violates the rule, yet the emitted message omits the `'<name>'` segment — it
is not the named form the claim requires for every named member. -/
theorem claim_C4_cex :
    (cex4.name).isSome = true ∧
    (processMember cex4).map Diagnostic.message =
      some "The class method must be marked either 'private', 'public', or 'protected'" ∧
    "The class method must be marked either 'private', 'public', or 'protected'" ≠
      "The class method 'foo' must be marked either 'private', 'public', or 'protected'" := by
  refine ⟨rfl, by decide, by decide⟩

/-- A plain method `foo() {}` with no modifiers, for witnesses. -/
def mW4 : Member :=
  { kind := SyntaxKind.methodDeclaration
    modifiers := []
    decorators := none
    name := some (NameNode.mk SyntaxKind.identifier "foo" 0 3)
    bodyTokens := [Token.mk SyntaxKind.identifier 0 0 3,
                   Token.mk SyntaxKind.otherToken 3 3 4,
                   Token.mk SyntaxKind.otherToken 4 4 5,
                   Token.mk SyntaxKind.otherToken 5 6 7,
                   Token.mk SyntaxKind.otherToken 7 7 8]
    parameters := [] }

/-- The diagnostic the rule emits for `mW4`. -/
def dW4 : Diagnostic :=
  { start := 0
    length := 3
    message := "The class method 'foo' must be marked either 'private', 'public', or 'protected'"
    fix := Replacement.mk 0 0 "public " }

theorem claim_C4_witness :
    processMember mW4 = some dW4 ∧
    dW4.message = "The " ++ "class method" ++ " '" ++ "foo" ++
      "' must be marked either 'private', 'public', or 'protected'" :=
  ⟨by decide,
   (claim_C4 mW4 dW4 (by decide)).1
     (NameNode.mk SyntaxKind.identifier "foo" 0 3) rfl rfl "class method" rfl⟩

/-- C10: when a checked member's name node exists but is not a plain
identifier, the emitted diagnostic uses the unnamed message form (the quoted
name segment is omitted), while its reported location is still the name
node's span. -/
theorem claim_C10 (m : Member) (d : Diagnostic) (n : NameNode)
    (h : processMember m = some d) (hn : m.name = some n)
    (hk : n.kind ≠ SyntaxKind.identifier) :
    (∀ ty, typeToString m.kind = Except.ok ty →
      d.message = "The " ++ ty ++
        " must be marked either 'private', 'public', or 'protected'") ∧
    d.start = n.start ∧ d.length = n.nameEnd - n.start := by
  obtain ⟨hs, hc⟩ := processMember_inv m d h
  obtain ⟨ty0, hty0, hstart, hlen, hmsg, _⟩ := check_inv m d hc
  have hloc := checkLocation_of_name m n (shouldCheck_ne_ctor m hs) hn
  refine ⟨?_, ?_, ?_⟩
  · intro ty hty
    rw [hty0] at hty
    injection hty with hty
    subst hty
    have hrn : reportedName m = none := by
      simp [reportedName, hn, hk]
    rw [hmsg, hrn, failureString_none]
  · rw [hstart, hloc]
  · rw [hlen, hloc]

/-- The diagnostic the rule emits for `cex4`. -/
def dC10 : Diagnostic :=
  { start := 0
    length := 5
    message := "The class method must be marked either 'private', 'public', or 'protected'"
    fix := Replacement.mk 0 0 "public " }

theorem claim_C10_witness :
    processMember cex4 = some dC10 ∧
    dC10.message = "The " ++ "class method" ++
      " must be marked either 'private', 'public', or 'protected'" ∧
    dC10.start = 0 ∧ dC10.length = 5 := by
  have h := claim_C10 cex4 dC10 (NameNode.mk SyntaxKind.stringLiteral "foo" 0 5)
    (by decide) rfl (by decide)
  exact ⟨by decide, h.1 "class method" rfl, h.2.1, h.2.2⟩

/-- C8: an emitted diagnostic's span comes from the member's name node when a
name is present, from the whole member node when no name is present, and —
for a constructor — from the `constructor` keyword token (a branch no emitted
diagnostic can in fact reach, since `shouldCheck` filters constructors out
before `check` runs). -/
theorem claim_C8 (m : Member) (d : Diagnostic)
    (h : processMember m = some d) :
    (∀ n, m.name = some n → d.start = n.start ∧ d.length = n.nameEnd - n.start) ∧
    (m.name = none → d.start = m.getStart ∧ d.length = m.memberEnd - m.getStart) ∧
    (m.kind = SyntaxKind.constructorDecl →
      ∀ t, getChildOfKind m SyntaxKind.constructorKeyword = some t →
        d.start = t.start ∧ d.length = t.tokEnd - t.start) := by
  obtain ⟨hs, hc⟩ := processMember_inv m d h
  obtain ⟨ty0, hty0, hstart, hlen, _, _⟩ := check_inv m d hc
  have hne := shouldCheck_ne_ctor m hs
  refine ⟨?_, ?_, ?_⟩
  · intro n hn
    have hloc := checkLocation_of_name m n hne hn
    exact ⟨by rw [hstart, hloc], by rw [hlen, hloc]⟩
  · intro hn
    have hloc := checkLocation_of_noName m hne hn
    exact ⟨by rw [hstart, hloc], by rw [hlen, hloc]⟩
  · intro hk
    exact absurd hk hne

theorem claim_C8_witness :
    processMember mW4 = some dW4 ∧ dW4.start = 0 ∧ dW4.length = 3 := by
  have h := claim_C8 mW4 dW4 (by decide)
  exact ⟨by decide, h.1 (NameNode.mk SyntaxKind.identifier "foo" 0 3) rfl⟩

/-! ### The fix and its insertion point -/

/-- The decorator tokens of `@f()x(){}`: `@`, `f`, `(`, `)`, ending at
offset 4 with the member's own name token starting immediately at 4. -/
def cex5dec : List Token :=
  [Token.mk SyntaxKind.otherToken 0 0 1,
   Token.mk SyntaxKind.identifier 1 1 2,
   Token.mk SyntaxKind.otherToken 2 2 3,
   Token.mk SyntaxKind.otherToken 3 3 4]

/-- The method member of `class A { @f()x(){} }`: no whitespace separates the
decorator list from the member's name. -/
def cex5 : Member :=
  { kind := SyntaxKind.methodDeclaration
    modifiers := []
    decorators := some cex5dec
    name := some (NameNode.mk SyntaxKind.identifier "x" 4 5)
    bodyTokens := [Token.mk SyntaxKind.identifier 4 4 5,
                   Token.mk SyntaxKind.otherToken 5 5 6,
                   Token.mk SyntaxKind.otherToken 6 6 7,
                   Token.mk SyntaxKind.otherToken 7 7 8,
                   Token.mk SyntaxKind.otherToken 8 8 9]
    parameters := [] }

/-- C5 counterexample: for this decorated member the emitted fix's insertion
offset equals the end offset of the last decorator (both are 4), so it is not
strictly greater than that end offset as the claim requires. -/
theorem claim_C5_cex :
    cex5.decorators = some cex5dec ∧
    decsEnd cex5dec = 4 ∧
    (processMember cex5).map (fun d => d.fix.start) = some 4 ∧
    ¬ (4 < 4) := by
  refine ⟨rfl, rfl, by decide, by decide⟩

/-- C5 (amended): every emitted fix is a zero-length insertion of the literal
`"public "`; for a member without decorators its offset equals the member's
start; for a decorated member (with a well-formed token stream: decorator
tokens end by the decorator list's end offset, and the member's first own
token covers that offset and starts no earlier than it) the offset is greater
than **or equal to** the end offset of the last decorator, and equals the
start of the member's first own token (its keyword or name), hence is at most
it. -/
theorem claim_C5 (m : Member) (d : Diagnostic)
    (h : processMember m = some d) :
    d.fix.length = 0 ∧ d.fix.text = "public " ∧
    (m.decorators = none → d.fix.start = m.getStart) ∧
    (∀ decs t1, m.decorators = some decs → m.bodyTokens.head? = some t1 →
      (∀ t ∈ decs, t.tokEnd ≤ decsEnd decs) →
      t1.fullStart ≤ decsEnd decs → decsEnd decs < t1.tokEnd →
      decsEnd decs ≤ t1.start →
      decsEnd decs ≤ d.fix.start ∧ d.fix.start = t1.start) := by
  obtain ⟨hs, hc⟩ := processMember_inv m d h
  obtain ⟨ty0, hty0, _, _, _, hfix⟩ := check_inv m d hc
  refine ⟨by rw [hfix]; rfl, by rw [hfix]; rfl, ?_, ?_⟩
  · intro hdec
    rw [hfix]
    simp only [Replacement.appendText, getInsertionPosition, hdec]
  · intro decs t1 hdec hhead hdtoks hfs hlt hle
    have htok : getTokenAtPosition m (decsEnd decs) = some t1 := by
      rw [getTokenAtPosition, Member.allTokens, hdec]
      have h1 : decs.find?
          (fun t => decide (t.fullStart ≤ decsEnd decs ∧ decsEnd decs < t.tokEnd))
            = none := by
        rw [List.find?_eq_none]
        intro t ht
        simp only [decide_eq_true_eq, not_and, not_lt]
        intro _
        exact hdtoks t ht
      rw [List.find?_append, h1]
      cases hb : m.bodyTokens with
      | nil => rw [hb] at hhead; exact absurd hhead (by simp)
      | cons a rest =>
        rw [hb] at hhead
        simp only [List.head?_cons, Option.some.injEq] at hhead
        subst hhead
        rw [Option.none_or]
        exact List.find?_cons_of_pos rest (decide_eq_true ⟨hfs, hlt⟩)
    have hins : getInsertionPosition m = t1.start := by
      simp only [getInsertionPosition, hdec, htok]
    rw [hfix]
    have hst : (Replacement.appendText (getInsertionPosition m) "public ").start
        = t1.start := hins
    exact ⟨by rw [hst]; exact hle, hst⟩

/-- A decorated method `@dec foo() {}` with whitespace after the decorator,
for the C5 witness. -/
def mW5 : Member :=
  { kind := SyntaxKind.methodDeclaration
    modifiers := []
    decorators := some [Token.mk SyntaxKind.otherToken 0 0 1,
                        Token.mk SyntaxKind.identifier 1 1 4]
    name := some (NameNode.mk SyntaxKind.identifier "foo" 5 8)
    bodyTokens := [Token.mk SyntaxKind.identifier 4 5 8,
                   Token.mk SyntaxKind.otherToken 8 8 9,
                   Token.mk SyntaxKind.otherToken 9 9 10,
                   Token.mk SyntaxKind.otherToken 10 11 12,
                   Token.mk SyntaxKind.otherToken 12 12 13]
    parameters := [] }

/-- The diagnostic the rule emits for `mW5`: the fix inserts at offset 5,
after the decorator ending at 4. -/
def dW5 : Diagnostic :=
  { start := 5
    length := 3
    message := "The class method 'foo' must be marked either 'private', 'public', or 'protected'"
    fix := Replacement.mk 5 0 "public " }

theorem claim_C5_witness :
    processMember mW5 = some dW5 ∧
    dW5.fix.length = 0 ∧ dW5.fix.text = "public " ∧
    decsEnd [Token.mk SyntaxKind.otherToken 0 0 1,
             Token.mk SyntaxKind.identifier 1 1 4] ≤ dW5.fix.start ∧
    dW5.fix.start = (Token.mk SyntaxKind.identifier 4 5 8).start := by
  have h := claim_C5 mW5 dW5 (by decide)
  have h4 := h.2.2.2
    [Token.mk SyntaxKind.otherToken 0 0 1, Token.mk SyntaxKind.identifier 1 1 4]
    (Token.mk SyntaxKind.identifier 4 5 8) rfl rfl (by decide) (by decide)
    (by decide) (by decide)
  exact ⟨by decide, h.1, h.2.1, h4.1, h4.2⟩

/-- Host-side application of the emitted fix, at the syntax-tree level:
inserting the text `"public "` at the insertion position (before the member's
own first token and after any decorators) reparses as the same member with a
leading `public` modifier. -/
def applyFixToMember (m : Member) : Member :=
  { m with modifiers := ModifierKind.publicKeyword :: m.modifiers }

/-- C9: after applying the fix to a member the rule reported, re-running the
rule produces no diagnostic for that member. -/
theorem claim_C9 (m : Member) (d : Diagnostic)
    (h : processMember m = some d) :
    processMember (applyFixToMember m) = none := by
  have hsc : shouldCheck (applyFixToMember m) = shouldCheck m := rfl
  rw [processMember, hsc]
  obtain ⟨hs, _⟩ := processMember_inv m d h
  rw [if_pos hs]
  rw [check]
  by_cases h1 : (hasModifier (applyFixToMember m).modifiers
      [ModifierKind.protectedKeyword, ModifierKind.privateKeyword]) = true
  · rw [if_pos h1]
  · rw [if_neg h1]
    have h2 : (getModifier (applyFixToMember m) ModifierKind.publicKeyword).isSome
        = true := by
      simp [getModifier, applyFixToMember, List.find?_cons_of_pos]
    rw [if_pos h2]

theorem claim_C9_witness :
    processMember mW4 = some dW4 ∧
    processMember (applyFixToMember mW4) = none :=
  ⟨by decide, claim_C9 mW4 dW4 (by decide)⟩
